import Mathlib

/-
Verification of the cryptobot price-ingestion-and-notification pipeline
(src/main.rs): a shallow embedding of the ingestion loop (fetch, extract
price, store to Redis, notify Telegram) and the paginated replay exporter,
together with theorems about the behaviours specified for them.

External collaborators (the Kraken HTTP endpoint, Telegram delivery, and
serde_json string deserialization) are modelled as oracle parameters; the
Redis list/string commands used by the program (SET, LPUSH, LTRIM, LRANGE)
are modelled by their documented semantics on an explicit store state.
-/

namespace Cryptobot

/-- JSON values as manipulated through serde_json::Value in main.rs:
objects keep their field order as a list of pairs. -/
inductive JsonVal where
  | null
  | bool (b : Bool)
  | num (n : Int)
  | str (s : String)
  | arr (xs : List JsonVal)
  | obj (fields : List (String × JsonVal))

/-- Value::as_object — some iff the value is an object. -/
def JsonVal.as_object : JsonVal → Option (List (String × JsonVal))
  | .obj fields => some fields
  | _ => none

/-- Value::get with a string key — lookup in an object, none otherwise. -/
def JsonVal.getKey : JsonVal → String → Option JsonVal
  | .obj fields, key => (fields.find? (fun f => f.1 == key)).map Prod.snd
  | _, _ => none

/-- Value::get with a numeric index — array indexing, none otherwise. -/
def JsonVal.getIdx : JsonVal → Nat → Option JsonVal
  | .arr xs, i => xs.get? i
  | _, _ => none

/-- Value::as_str — some iff the value is a string. -/
def JsonVal.as_str : JsonVal → Option String
  | .str s => some s
  | _ => none

/-- The optional chain of main.rs lines 186-191: first object value of the
result mapping, then its "c" field, then that field's element 0, as a
string. -/
def extractPriceOpt (result : JsonVal) : Option String :=
  ((((result.as_object.bind (fun obj => (obj.map Prod.snd).head?)).bind
    (fun pairVal => pairVal.getKey "c")).bind
    (fun c => c.getIdx 0)).bind
    (fun p => p.as_str))

/-- The extracted price with the unwrap_or fallback of line 192. -/
def extractPrice (result : JsonVal) : String :=
  (extractPriceOpt result).getD "N/A"

/-- The PriceData record serialized into Redis. -/
structure PriceData where
  price : String
  timestamp : String
deriving DecidableEq, Repr

/-- serde_json::to_string of a PriceData (line 202), for field strings
without JSON escapes. -/
def serializePriceData (pd : PriceData) : String :=
  "\x7b\"price\":\"" ++ pd.price ++ "\",\"timestamp\":\"" ++ pd.timestamp ++ "\"\x7d"

/-- The Redis keyspace as used by the program: string values (latest price
per pair, key = pair) and list values (history, key = "history:" ++ pair). -/
structure Store where
  kv : String → Option String
  lists : String → List String

/-- The empty store (fresh database). -/
def Store.empty : Store :=
  ⟨fun _ => none, fun _ => []⟩

/-- Redis SET (line 203). -/
def Store.set (st : Store) (key val : String) : Store :=
  ⟨fun k => if k = key then some val else st.kv k, st.lists⟩

/-- Redis LPUSH (line 207): insert at the head of the list. -/
def Store.lpush (st : Store) (key val : String) : Store :=
  ⟨st.kv, fun k => if k = key then val :: st.lists k else st.lists k⟩

/-- Redis LTRIM key start stop (line 208) for non-negative indices: keep
elements start..stop inclusive. -/
def Store.ltrim (st : Store) (key : String) (start stop : Nat) : Store :=
  ⟨st.kv, fun k =>
    if k = key then ((st.lists k).drop start).take (stop + 1 - start) else st.lists k⟩

/-- Redis LRANGE key start stop (line 103) for non-negative indices:
elements start..stop inclusive; empty once start is past the end. -/
def Store.lrange (st : Store) (key : String) (start stop : Nat) : List String :=
  ((st.lists key).drop start).take (stop + 1 - start)

/-- The history write of lines 206-208: LPUSH then LTRIM 0 23 on
"history:" ++ pair. -/
def push_history (st : Store) (pair json : String) : Store :=
  (st.lpush ("history:" ++ pair) json).ltrim ("history:" ++ pair) 0 23

/-- A decoded Kraken ticker response: the result mapping and the remote
error list. -/
structure KrakenResponse where
  result : JsonVal
  error : List String

/-- Outcome of one fetch for one pair: transport failure of send() (line
226), JSON decode failure (line 223), or a decoded response. -/
inductive FetchOutcome where
  | transportErr
  | decodeErr
  | ok (resp : KrakenResponse)

/-- Whether each of the three Redis calls of the ingestion step succeeds;
models connectivity failures of the store. -/
structure StoreOracle where
  setOk : Bool
  lpushOk : Bool
  ltrimOk : Bool

/-- The oracle where every store call succeeds. -/
def StoreOracle.allOk : StoreOracle :=
  ⟨true, true, true⟩

/-- Result of processing one pair in one tick of the ingestion loop. -/
structure StepResult where
  store : Store
  sent : List String
  notifyAttempted : Bool
  aborted : Bool

/-- The live-update message template of lines 211-216. -/
def formatLiveMessage (pair price ts : String) : String :=
  "🔔 Price Update\n\nPair: " ++ pair ++ "\nPrice: $" ++ price ++ "\nTime: " ++ ts

/-- One pair's processing inside the ingestion loop (lines 176-227).
Fetch and decode errors are logged and skipped; a non-empty remote error
list is logged and skipped; otherwise the price is extracted, the record
serialized, written with SET then LPUSH then LTRIM — each call aborting
main on failure via the question-mark operator — and finally a Telegram
send is attempted, whose failure is only logged. -/
def process_pair (oracle : StoreOracle) (sendOk : Bool) (fetch : FetchOutcome)
    (pair ts : String) (st : Store) : StepResult :=
  match fetch with
  | .transportErr => ⟨st, [], false, false⟩
  | .decodeErr => ⟨st, [], false, false⟩
  | .ok resp =>
    if resp.error.isEmpty then
      let price := extractPrice resp.result
      let json := serializePriceData ⟨price, ts⟩
      if oracle.setOk then
        let st1 := st.set pair json
        if oracle.lpushOk then
          let st2 := st1.lpush ("history:" ++ pair) json
          if oracle.ltrimOk then
            let st3 := st2.ltrim ("history:" ++ pair) 0 23
            if sendOk then ⟨st3, [formatLiveMessage pair price ts], true, false⟩
            else ⟨st3, [], true, false⟩
          else ⟨st2, [], false, true⟩
        else ⟨st1, [], false, true⟩
      else ⟨st, [], false, true⟩
    else ⟨st, [], false, false⟩

/-- Result of one tick of the ingestion loop over the configured pairs. -/
structure TickResult where
  store : Store
  sent : List String
  aborted : Bool

/-- One tick of the ingestion loop: the pairs in configuration order, each
through process_pair; an abort (a propagated store error) stops the run. -/
def process_tick (oracle : String → StoreOracle) (sendOk : String → Bool)
    (fetchOf : String → FetchOutcome) (ts : String) :
    List String → Store → TickResult
  | [], st => ⟨st, [], false⟩
  | pair :: rest, st =>
    let r := process_pair (oracle pair) (sendOk pair) (fetchOf pair) pair ts st
    if r.aborted then ⟨r.store, r.sent, true⟩
    else
      let t := process_tick oracle sendOk fetchOf ts rest r.store
      ⟨t.store, r.sent ++ t.sent, t.aborted⟩

/-- The historical-price message template of lines 113-118. -/
def formatHistoricalMessage (pair : String) (pd : PriceData) : String :=
  "🔄 Historical Price\n\nPair: " ++ pair ++ "\nPrice: $" ++ pd.price ++
    "\nTime: " ++ pd.timestamp

/-- The replay chunk size (line 95). -/
def CHUNK_SIZE : Nat := 100

/-- Outcome of a replay computation: the messages sent, the next send
index, and whether it completed without a send failure aborting it. -/
structure ReplayResult where
  msgs : List String
  nextK : Nat
  ok : Bool

/-- Processing of one chunk in replay_data (lines 111-127): each entry is
deserialized by fromStr (serde_json::from_str); a failed deserialization is
skipped silently; a successful one is formatted and sent, where sendOk k
tells whether the k-th send of the run succeeds — a failed send aborts
replay via the question-mark operator. Returns the messages sent, the next
send index, and whether the chunk completed without aborting. -/
def processChunk (fromStr : String → Option PriceData) (sendOk : Nat → Bool)
    (pair : String) : List String → Nat → ReplayResult
  | [], k => ⟨[], k, true⟩
  | json :: rest, k =>
    match fromStr json with
    | none => processChunk fromStr sendOk pair rest k
    | some pd =>
      if sendOk k then
        let r := processChunk fromStr sendOk pair rest (k + 1)
        ⟨formatHistoricalMessage pair pd :: r.msgs, r.nextK, r.ok⟩
      else ⟨[], k, false⟩

/-- The paginated per-pair loop of replay_data (lines 99-131): LRANGE a
chunk at the current offset, stop on an empty page, otherwise process the
chunk and advance the offset by CHUNK_SIZE. -/
def replayPages (fromStr : String → Option PriceData) (sendOk : Nat → Bool)
    (st : Store) (pair : String) (start k : Nat) : ReplayResult :=
  if h : st.lrange ("history:" ++ pair) start (start + CHUNK_SIZE - 1) = [] then
    ⟨[], k, true⟩
  else
    let r := processChunk fromStr sendOk pair
      (st.lrange ("history:" ++ pair) start (start + CHUNK_SIZE - 1)) k
    if r.ok then
      let r2 := replayPages fromStr sendOk st pair (start + CHUNK_SIZE) r.nextK
      ⟨r.msgs ++ r2.msgs, r2.nextK, r2.ok⟩
    else r
termination_by (st.lists ("history:" ++ pair)).length - start
decreasing_by
  have hlt : start < (st.lists ("history:" ++ pair)).length := by
    by_contra hge
    push_neg at hge
    apply h
    unfold Store.lrange
    rw [List.drop_eq_nil_of_le hge]
    simp
  have h2 : start < start + CHUNK_SIZE := by unfold CHUNK_SIZE; omega
  exact Nat.sub_lt_sub_left hlt h2

/-- The whole replay run (lines 94-134): each configured pair in order,
through the paginated loop; a send failure aborts the run. -/
def replay_data (fromStr : String → Option PriceData) (sendOk : Nat → Bool)
    (st : Store) : List String → Nat → ReplayResult
  | [], k => ⟨[], k, true⟩
  | pair :: rest, k =>
    let r := replayPages fromStr sendOk st pair 0 k
    if r.ok then
      let r2 := replay_data fromStr sendOk st rest r.nextK
      ⟨r.msgs ++ r2.msgs, r2.nextK, r2.ok⟩
    else r

/-- A sequence of successful polls seen as the history writes they perform:
each poll for a pair pushes one serialized quote through push_history. -/
def pushSeq (polls : List (String × String)) (st : Store) : Store :=
  polls.foldl (fun s pj => push_history s pj.1 pj.2) st

theorem head?_take_pos (j : String) (l : List String) (n : Nat) (hn : 0 < n) :
    ((j :: l).take n).head? = some j := by
  cases n with
  | zero => exact absurd hn (Nat.lt_irrefl 0)
  | succ m => simp

theorem push_history_bounds (st : Store) (pair json k : String) :
    ((push_history st pair json).lists k).length ≤ 24 ∨
      (push_history st pair json).lists k = st.lists k := by
  unfold push_history Store.lpush Store.ltrim
  by_cases hk : k = "history:" ++ pair
  · left
    simp [hk, List.length_take]
  · right
    simp [hk]

theorem pushSeq_bounded (polls : List (String × String)) (st : Store)
    (hst : ∀ k, (st.lists k).length ≤ 24) :
    ∀ k, ((pushSeq polls st).lists k).length ≤ 24 := by
  induction polls generalizing st with
  | nil => exact hst
  | cons pj rest ih =>
    have hstep : ∀ k, ((push_history st pj.1 pj.2).lists k).length ≤ 24 := by
      intro k
      rcases push_history_bounds st pj.1 pj.2 k with h | h
      · exact h
      · rw [h]; exact hst k
    exact ih (push_history st pj.1 pj.2) hstep

/-- C1: starting from an empty store, after any sequence of successful
polls the history list of every pair has at most 24 entries; moreover a
single push_history (LPUSH then LTRIM 0 23) leaves the touched history
list at length at most 24 whatever its previous length. -/
theorem history_length_bounded :
    (∀ (polls : List (String × String)) (pair : String),
      ((pushSeq polls Store.empty).lists ("history:" ++ pair)).length ≤ 24) ∧
    (∀ (st : Store) (pair json : String),
      ((push_history st pair json).lists ("history:" ++ pair)).length ≤ 24) := by
  constructor
  · intro polls pair
    exact pushSeq_bounded polls Store.empty (fun k => by simp [Store.empty]) _
  · intro st pair json
    unfold push_history Store.lpush Store.ltrim
    simp [List.length_take]

/-- C10: after a successful ingestion step (usable quote, all store calls
succeed), the latest-price record under the pair's key and the head of the
pair's history list are the same serialized string. -/
theorem latest_matches_history_head (resp : KrakenResponse) (sendOk : Bool)
    (pair ts : String) (st : Store) (herr : resp.error = []) :
    (process_pair StoreOracle.allOk sendOk (.ok resp) pair ts st).store.kv pair =
      some (serializePriceData ⟨extractPrice resp.result, ts⟩) ∧
    ((process_pair StoreOracle.allOk sendOk (.ok resp) pair ts st).store.lists
        ("history:" ++ pair)).head? =
      some (serializePriceData ⟨extractPrice resp.result, ts⟩) := by
  unfold process_pair StoreOracle.allOk Store.set Store.lpush Store.ltrim
  cases sendOk <;>
    simp [herr, head?_take_pos]

/-- C10 witness at a concrete response, pair and store. -/
theorem latest_matches_history_head_witness :
    (process_pair StoreOracle.allOk true
        (.ok ⟨.obj [("XXBTZUSD", .obj [("c", .arr [.str "42000.5", .str "0.001"])])], []⟩)
        "XBTUSD" "2024-01-01 00:00:00 UTC" Store.empty).store.kv "XBTUSD" =
      some (serializePriceData
        ⟨extractPrice (.obj [("XXBTZUSD", .obj [("c", .arr [.str "42000.5", .str "0.001"])])]),
          "2024-01-01 00:00:00 UTC"⟩) ∧
    ((process_pair StoreOracle.allOk true
        (.ok ⟨.obj [("XXBTZUSD", .obj [("c", .arr [.str "42000.5", .str "0.001"])])], []⟩)
        "XBTUSD" "2024-01-01 00:00:00 UTC" Store.empty).store.lists
        "history:XBTUSD").head? =
      some (serializePriceData
        ⟨extractPrice (.obj [("XXBTZUSD", .obj [("c", .arr [.str "42000.5", .str "0.001"])])]),
          "2024-01-01 00:00:00 UTC"⟩) :=
  latest_matches_history_head
    ⟨.obj [("XXBTZUSD", .obj [("c", .arr [.str "42000.5", .str "0.001"])])], []⟩
    true "XBTUSD" "2024-01-01 00:00:00 UTC" Store.empty rfl

/-- C2 counterexample: with a usable quote and a failing SET call, the
ingestion step does not reach the notification — the failure propagates
through the question-mark operator and aborts the run, contradicting the
claim that processing proceeds anyway to notification. -/
theorem store_failure_blocks_notification :
    (process_pair ⟨false, true, true⟩ true
        (.ok ⟨.obj [("XXBTZUSD", .obj [("c", .arr [.str "42000.5", .str "0.001"])])], []⟩)
        "XBTUSD" "2024-01-01 00:00:00 UTC" Store.empty).notifyAttempted = false ∧
    (process_pair ⟨false, true, true⟩ true
        (.ok ⟨.obj [("XXBTZUSD", .obj [("c", .arr [.str "42000.5", .str "0.001"])])], []⟩)
        "XBTUSD" "2024-01-01 00:00:00 UTC" Store.empty).aborted = true := by
  exact ⟨rfl, rfl⟩

/-- C2 amended: if any of the three store calls of the ingestion step
(SET, LPUSH, or the LTRIM truncation) fails, the error propagates: the run
aborts, no notification is attempted and no message is sent for that
pair. -/
theorem store_failure_aborts (oracle : StoreOracle) (sendOk : Bool)
    (resp : KrakenResponse) (pair ts : String) (st : Store)
    (herr : resp.error = [])
    (hfail : oracle.setOk = false ∨ oracle.lpushOk = false ∨ oracle.ltrimOk = false) :
    (process_pair oracle sendOk (.ok resp) pair ts st).aborted = true ∧
    (process_pair oracle sendOk (.ok resp) pair ts st).notifyAttempted = false ∧
    (process_pair oracle sendOk (.ok resp) pair ts st).sent = [] := by
  obtain ⟨s, p, t⟩ := oracle
  cases s <;> cases p <;> cases t <;> simp_all [process_pair, herr]

/-- C2 amended claim witness: concrete failing LPUSH call. -/
theorem store_failure_aborts_witness :
    (process_pair ⟨true, false, true⟩ true (.ok ⟨.null, []⟩)
        "XBTUSD" "ts" Store.empty).aborted = true ∧
    (process_pair ⟨true, false, true⟩ true (.ok ⟨.null, []⟩)
        "XBTUSD" "ts" Store.empty).notifyAttempted = false ∧
    (process_pair ⟨true, false, true⟩ true (.ok ⟨.null, []⟩)
        "XBTUSD" "ts" Store.empty).sent = [] :=
  store_failure_aborts ⟨true, false, true⟩ true ⟨.null, []⟩ "XBTUSD" "ts" Store.empty
    rfl (Or.inr (Or.inl rfl))

theorem process_tick_cons (oracle : String → StoreOracle) (sendOk : String → Bool)
    (fetchOf : String → FetchOutcome) (ts pair : String) (rest : List String)
    (st : Store) :
    process_tick oracle sendOk fetchOf ts (pair :: rest) st =
      (let r := process_pair (oracle pair) (sendOk pair) (fetchOf pair) pair ts st
       if r.aborted then ⟨r.store, r.sent, true⟩
       else
         let t := process_tick oracle sendOk fetchOf ts rest r.store
         ⟨t.store, r.sent ++ t.sent, t.aborted⟩) := rfl

theorem process_tick_cons_skip (oracle : String → StoreOracle) (sendOk : String → Bool)
    (fetchOf : String → FetchOutcome) (ts pair : String) (rest : List String)
    (st : Store)
    (h : process_pair (oracle pair) (sendOk pair) (fetchOf pair) pair ts st =
      ⟨st, [], false, false⟩) :
    process_tick oracle sendOk fetchOf ts (pair :: rest) st =
      process_tick oracle sendOk fetchOf ts rest st := by
  simp only [process_tick_cons, h]
  simp

theorem process_tick_cons_noabort (oracle : String → StoreOracle) (sendOk : String → Bool)
    (fetchOf : String → FetchOutcome) (ts pair : String) (rest : List String)
    (st : Store)
    (h : (process_pair (oracle pair) (sendOk pair) (fetchOf pair) pair ts st).aborted
      = false) :
    process_tick oracle sendOk fetchOf ts (pair :: rest) st =
      (let r := process_pair (oracle pair) (sendOk pair) (fetchOf pair) pair ts st
       let t := process_tick oracle sendOk fetchOf ts rest r.store
       (⟨t.store, r.sent ++ t.sent, t.aborted⟩ : TickResult)) := by
  simp only [process_tick_cons, h]
  simp

/-- C4: the price is extracted through the optional chain (first object
value of the result mapping, its "c" field, that field's element 0, as a
string); when the chain produces a string the price is that string, when
any step misses the price degrades to the sentinel "N/A", and the sentinel
quote is still stored under both keys and still notified. -/
theorem lenient_price_extraction :
    (∀ (j : JsonVal) (s : String), extractPriceOpt j = some s → extractPrice j = s) ∧
    (∀ j : JsonVal, extractPriceOpt j = none → extractPrice j = "N/A") ∧
    (∀ (resp : KrakenResponse) (pair ts : String) (st : Store),
      resp.error = [] → extractPriceOpt resp.result = none →
      (process_pair StoreOracle.allOk true (.ok resp) pair ts st).store.kv pair =
        some (serializePriceData ⟨"N/A", ts⟩) ∧
      ((process_pair StoreOracle.allOk true (.ok resp) pair ts st).store.lists
          ("history:" ++ pair)).head? =
        some (serializePriceData ⟨"N/A", ts⟩) ∧
      (process_pair StoreOracle.allOk true (.ok resp) pair ts st).sent =
        [formatLiveMessage pair "N/A" ts] ∧
      (process_pair StoreOracle.allOk true (.ok resp) pair ts st).notifyAttempted
        = true) := by
  refine ⟨?_, ?_, ?_⟩
  · intro j s h
    unfold extractPrice
    rw [h]
    rfl
  · intro j h
    unfold extractPrice
    rw [h]
    rfl
  · intro resp pair ts st herr hmiss
    have hp : extractPrice resp.result = "N/A" := by
      unfold extractPrice
      rw [hmiss]
      rfl
    unfold process_pair StoreOracle.allOk Store.set Store.lpush Store.ltrim
    simp [herr, hp, head?_take_pos]

/-- C4 witness: a present chain yields the quoted string, a missing chain
yields "N/A", and a response whose result is an empty object is stored and
notified with the sentinel. -/
theorem lenient_price_extraction_witness :
    extractPrice (.obj [("XXBTZUSD", .obj [("c", .arr [.str "42000.5", .str "0.001"])])])
      = "42000.5" ∧
    extractPrice .null = "N/A" ∧
    ((process_pair StoreOracle.allOk true (.ok ⟨.obj [], []⟩) "XBTUSD" "T"
        Store.empty).store.kv "XBTUSD" = some (serializePriceData ⟨"N/A", "T"⟩) ∧
      ((process_pair StoreOracle.allOk true (.ok ⟨.obj [], []⟩) "XBTUSD" "T"
          Store.empty).store.lists ("history:" ++ "XBTUSD")).head? =
        some (serializePriceData ⟨"N/A", "T"⟩) ∧
      (process_pair StoreOracle.allOk true (.ok ⟨.obj [], []⟩) "XBTUSD" "T"
          Store.empty).sent = [formatLiveMessage "XBTUSD" "N/A" "T"] ∧
      (process_pair StoreOracle.allOk true (.ok ⟨.obj [], []⟩) "XBTUSD" "T"
          Store.empty).notifyAttempted = true) :=
  ⟨lenient_price_extraction.1
      (.obj [("XXBTZUSD", .obj [("c", .arr [.str "42000.5", .str "0.001"])])])
      "42000.5" rfl,
    lenient_price_extraction.2.1 .null rfl,
    lenient_price_extraction.2.2 ⟨.obj [], []⟩ "XBTUSD" "T" Store.empty rfl rfl⟩

/-- C5: a decoded response with a non-empty remote error list causes no
store write, no send attempt and no abort for that pair, and the tick on
the remaining pairs proceeds exactly as if that pair were absent. -/
theorem remote_error_skips (oracle : String → StoreOracle) (sendOk : String → Bool)
    (fetchOf : String → FetchOutcome) (ts pair : String) (rest : List String)
    (st : Store) (resp : KrakenResponse)
    (hfetch : fetchOf pair = .ok resp) (herr : resp.error ≠ []) :
    process_pair (oracle pair) (sendOk pair) (fetchOf pair) pair ts st =
      ⟨st, [], false, false⟩ ∧
    process_tick oracle sendOk fetchOf ts (pair :: rest) st =
      process_tick oracle sendOk fetchOf ts rest st := by
  have hstep : process_pair (oracle pair) (sendOk pair) (fetchOf pair) pair ts st =
      ⟨st, [], false, false⟩ := by
    rw [hfetch]
    unfold process_pair
    simp [herr]
  exact ⟨hstep, process_tick_cons_skip oracle sendOk fetchOf ts pair rest st hstep⟩

/-- C5 witness: a remote error on the first of two pairs. -/
theorem remote_error_skips_witness :
    process_pair ((fun _ => StoreOracle.allOk) "XBTUSD") ((fun _ => true) "XBTUSD")
        ((fun _ => FetchOutcome.ok ⟨.null, ["EService:Unavailable"]⟩) "XBTUSD")
        "XBTUSD" "T" Store.empty = ⟨Store.empty, [], false, false⟩ ∧
    process_tick (fun _ => StoreOracle.allOk) (fun _ => true)
        (fun _ => FetchOutcome.ok ⟨.null, ["EService:Unavailable"]⟩) "T"
        ("XBTUSD" :: ["ETHUSD"]) Store.empty =
      process_tick (fun _ => StoreOracle.allOk) (fun _ => true)
        (fun _ => FetchOutcome.ok ⟨.null, ["EService:Unavailable"]⟩) "T"
        ["ETHUSD"] Store.empty :=
  remote_error_skips (fun _ => StoreOracle.allOk) (fun _ => true)
    (fun _ => FetchOutcome.ok ⟨.null, ["EService:Unavailable"]⟩) "T" "XBTUSD"
    ["ETHUSD"] Store.empty ⟨.null, ["EService:Unavailable"]⟩ rfl (by simp)

/-- C6: a transport failure or a non-decodable response causes no store
write, no send attempt and no abort for that pair, and the remaining pairs
of the tick are processed as if that pair were absent. -/
theorem fetch_error_skips :
    (∀ (o : StoreOracle) (s : Bool) (pair ts : String) (st : Store),
      process_pair o s .transportErr pair ts st = ⟨st, [], false, false⟩ ∧
      process_pair o s .decodeErr pair ts st = ⟨st, [], false, false⟩) ∧
    (∀ (oracle : String → StoreOracle) (sendOk : String → Bool)
      (fetchOf : String → FetchOutcome) (ts pair : String) (rest : List String)
      (st : Store),
      (fetchOf pair = .transportErr ∨ fetchOf pair = .decodeErr) →
      process_tick oracle sendOk fetchOf ts (pair :: rest) st =
        process_tick oracle sendOk fetchOf ts rest st) := by
  constructor
  · intro o s pair ts st
    exact ⟨rfl, rfl⟩
  · intro oracle sendOk fetchOf ts pair rest st hcase
    apply process_tick_cons_skip
    rcases hcase with h | h <;> rw [h] <;> rfl

/-- C6 witness: a transport failure on the first of two pairs. -/
theorem fetch_error_skips_witness :
    process_tick (fun _ => StoreOracle.allOk) (fun _ => true)
        (fun _ => FetchOutcome.transportErr) "T" ("XBTUSD" :: ["ETHUSD"]) Store.empty =
      process_tick (fun _ => StoreOracle.allOk) (fun _ => true)
        (fun _ => FetchOutcome.transportErr) "T" ["ETHUSD"] Store.empty :=
  fetch_error_skips.2 (fun _ => StoreOracle.allOk) (fun _ => true)
    (fun _ => FetchOutcome.transportErr) "T" "XBTUSD" ["ETHUSD"] Store.empty
    (Or.inl rfl)

/-- C8: when the stores succeed but the Telegram send fails, the failure
is only logged: the step attempted the notification, delivered nothing,
did not abort, and the tick continues with the remaining pairs from the
updated store. -/
theorem notify_failure_nonfatal (oracle : String → StoreOracle)
    (sendOk : String → Bool) (fetchOf : String → FetchOutcome)
    (ts pair : String) (rest : List String) (st : Store) (resp : KrakenResponse)
    (hfetch : fetchOf pair = .ok resp) (herr : resp.error = [])
    (horacle : oracle pair = StoreOracle.allOk) (hsend : sendOk pair = false) :
    (process_pair (oracle pair) (sendOk pair) (fetchOf pair) pair ts st).notifyAttempted
      = true ∧
    (process_pair (oracle pair) (sendOk pair) (fetchOf pair) pair ts st).sent = [] ∧
    (process_pair (oracle pair) (sendOk pair) (fetchOf pair) pair ts st).aborted
      = false ∧
    process_tick oracle sendOk fetchOf ts (pair :: rest) st =
      process_tick oracle sendOk fetchOf ts rest
        (process_pair (oracle pair) (sendOk pair) (fetchOf pair) pair ts st).store := by
  have hstep : process_pair (oracle pair) (sendOk pair) (fetchOf pair) pair ts st =
      ⟨((st.set pair (serializePriceData ⟨extractPrice resp.result, ts⟩)).lpush
          ("history:" ++ pair) (serializePriceData ⟨extractPrice resp.result, ts⟩)).ltrim
          ("history:" ++ pair) 0 23, [], true, false⟩ := by
    rw [hfetch, horacle, hsend]
    unfold process_pair
    simp [herr, StoreOracle.allOk]
  refine ⟨by rw [hstep], by rw [hstep], by rw [hstep], ?_⟩
  rw [process_tick_cons_noabort oracle sendOk fetchOf ts pair rest st (by rw [hstep])]
  simp [hstep]

/-- C8 witness: send failure on the first of two pairs. -/
theorem notify_failure_nonfatal_witness :
    (process_pair ((fun _ => StoreOracle.allOk) "XBTUSD") ((fun _ => false) "XBTUSD")
        ((fun _ => FetchOutcome.ok ⟨.null, []⟩) "XBTUSD") "XBTUSD" "T"
        Store.empty).notifyAttempted = true ∧
    (process_pair ((fun _ => StoreOracle.allOk) "XBTUSD") ((fun _ => false) "XBTUSD")
        ((fun _ => FetchOutcome.ok ⟨.null, []⟩) "XBTUSD") "XBTUSD" "T"
        Store.empty).sent = [] ∧
    (process_pair ((fun _ => StoreOracle.allOk) "XBTUSD") ((fun _ => false) "XBTUSD")
        ((fun _ => FetchOutcome.ok ⟨.null, []⟩) "XBTUSD") "XBTUSD" "T"
        Store.empty).aborted = false ∧
    process_tick (fun _ => StoreOracle.allOk) (fun _ => false)
        (fun _ => FetchOutcome.ok ⟨.null, []⟩) "T" ("XBTUSD" :: ["ETHUSD"]) Store.empty =
      process_tick (fun _ => StoreOracle.allOk) (fun _ => false)
        (fun _ => FetchOutcome.ok ⟨.null, []⟩) "T" ["ETHUSD"]
        (process_pair ((fun _ => StoreOracle.allOk) "XBTUSD") ((fun _ => false) "XBTUSD")
          ((fun _ => FetchOutcome.ok ⟨.null, []⟩) "XBTUSD") "XBTUSD" "T"
          Store.empty).store :=
  notify_failure_nonfatal (fun _ => StoreOracle.allOk) (fun _ => false)
    (fun _ => FetchOutcome.ok ⟨.null, []⟩) "T" "XBTUSD" ["ETHUSD"] Store.empty
    ⟨.null, []⟩ rfl rfl rfl rfl

theorem lrange_chunk_eq_nil_iff (st : Store) (key : String) (start : Nat) :
    st.lrange key start (start + CHUNK_SIZE - 1) = [] ↔
      (st.lists key).length ≤ start := by
  unfold Store.lrange CHUNK_SIZE
  have hcount : start + 100 - 1 + 1 - start = 100 := by omega
  rw [hcount, List.take_eq_nil_iff]
  constructor
  · intro h
    rcases h with h | h
    · omega
    · exact List.drop_eq_nil_iff.mp h
  · intro h
    exact Or.inr (List.drop_eq_nil_iff.mpr h)

theorem mem_of_mem_lrange (st : Store) (key : String) (start stop : Nat)
    (s : String) (h : s ∈ st.lrange key start stop) : s ∈ st.lists key := by
  unfold Store.lrange at h
  exact List.mem_of_mem_drop (List.mem_of_mem_take h)

theorem replayPages_past_end (fromStr : String → Option PriceData)
    (sendOk : Nat → Bool) (st : Store) (pair : String) (start k : Nat)
    (hoff : (st.lists ("history:" ++ pair)).length ≤ start) :
    replayPages fromStr sendOk st pair start k = ⟨[], k, true⟩ := by
  rw [replayPages.eq_def]
  rw [dif_pos ((lrange_chunk_eq_nil_iff st ("history:" ++ pair) start).mpr hoff)]

theorem processChunk_all_none (fromStr : String → Option PriceData)
    (sendOk : Nat → Bool) (pair : String) (l : List String) (k : Nat)
    (hnone : ∀ s ∈ l, fromStr s = none) :
    processChunk fromStr sendOk pair l k = ⟨[], k, true⟩ := by
  induction l with
  | nil => rfl
  | cons json rest ih =>
    have hj : fromStr json = none := hnone json (List.mem_cons_self json rest)
    have hrest : ∀ s ∈ rest, fromStr s = none :=
      fun s hs => hnone s (List.mem_cons_of_mem json hs)
    simp only [processChunk, hj]
    exact ih hrest

theorem processChunk_sends_succeed (fromStr : String → Option PriceData)
    (pair : String) (l : List String) (k : Nat) :
    processChunk fromStr (fun _ => true) pair l k =
      ⟨l.filterMap (fun s => (fromStr s).map (formatHistoricalMessage pair)),
        k + l.countP (fun s => (fromStr s).isSome), true⟩ := by
  induction l generalizing k with
  | nil => simp [processChunk]
  | cons json rest ih =>
    cases hj : fromStr json with
    | none =>
      simp only [processChunk, hj]
      rw [ih k]
      simp [hj]
    | some pd =>
      simp only [processChunk, hj]
      rw [ih (k + 1)]
      simp [hj]
      omega

theorem replayPages_all_none (fromStr : String → Option PriceData)
    (sendOk : Nat → Bool) (st : Store) (pair : String)
    (hnone : ∀ s ∈ st.lists ("history:" ++ pair), fromStr s = none) :
    ∀ (n start k : Nat), (st.lists ("history:" ++ pair)).length - start ≤ n →
      replayPages fromStr sendOk st pair start k = ⟨[], k, true⟩ := by
  intro n
  induction n with
  | zero =>
    intro start k hle
    exact replayPages_past_end fromStr sendOk st pair start k (by omega)
  | succ n ih =>
    intro start k hle
    by_cases hempty :
        st.lrange ("history:" ++ pair) start (start + CHUNK_SIZE - 1) = []
    · rw [replayPages.eq_def, dif_pos hempty]
    · have hlt : start < (st.lists ("history:" ++ pair)).length := by
        by_contra hge
        exact hempty ((lrange_chunk_eq_nil_iff st ("history:" ++ pair) start).mpr
          (by omega))
      have hchunk : processChunk fromStr sendOk pair
          (st.lrange ("history:" ++ pair) start (start + CHUNK_SIZE - 1)) k =
          ⟨[], k, true⟩ :=
        processChunk_all_none fromStr sendOk pair _ k
          (fun s hs => hnone s (mem_of_mem_lrange st _ start _ s hs))
      have hrec : replayPages fromStr sendOk st pair (start + CHUNK_SIZE) k =
          ⟨[], k, true⟩ := by
        apply ih
        have hc : CHUNK_SIZE = 100 := rfl
        omega
      rw [replayPages.eq_def, dif_neg hempty]
      simp [hchunk, hrec]

theorem filterMap_map_of_isSome (f : String → Option PriceData)
    (g : PriceData → String) (l : List String)
    (h : ∀ s ∈ l, (f s).isSome) :
    l.filterMap (fun s => (f s).map g) =
      l.map (fun s => g ((f s).getD ⟨"", ""⟩)) := by
  induction l with
  | nil => rfl
  | cons a rest ih =>
    have ha : (f a).isSome := h a (List.mem_cons_self a rest)
    have hrest : ∀ s ∈ rest, (f s).isSome :=
      fun s hs => h s (List.mem_cons_of_mem a hs)
    cases hfa : f a with
    | none => rw [hfa] at ha; exact absurd ha (by simp)
    | some pd =>
      simp only [List.filterMap_cons, List.map_cons, hfa, Option.map_some]
      rw [ih hrest]
      simp

theorem replayPages_single_page (fromStr : String → Option PriceData)
    (st : Store) (pair : String) (k : Nat)
    (hlen : (st.lists ("history:" ++ pair)).length ≤ CHUNK_SIZE) :
    replayPages fromStr (fun _ => true) st pair 0 k =
      ⟨(st.lists ("history:" ++ pair)).filterMap
          (fun s => (fromStr s).map (formatHistoricalMessage pair)),
        k + (st.lists ("history:" ++ pair)).countP (fun s => (fromStr s).isSome),
        true⟩ := by
  by_cases hnil : st.lists ("history:" ++ pair) = []
  · rw [replayPages_past_end fromStr (fun _ => true) st pair 0 k (by rw [hnil]; simp)]
    rw [hnil]
    simp
  · have hcount : 0 + CHUNK_SIZE - 1 + 1 - 0 = CHUNK_SIZE := by
      have hc : CHUNK_SIZE = 100 := rfl
      omega
    have hpage : st.lrange ("history:" ++ pair) 0 (0 + CHUNK_SIZE - 1) =
        st.lists ("history:" ++ pair) := by
      unfold Store.lrange
      rw [hcount]
      simp [List.take_of_length_le hlen]
    have hrest : replayPages fromStr (fun _ => true) st pair (0 + CHUNK_SIZE)
        (k + (st.lists ("history:" ++ pair)).countP (fun s => (fromStr s).isSome)) =
        ⟨[], k + (st.lists ("history:" ++ pair)).countP (fun s => (fromStr s).isSome),
          true⟩ :=
      replayPages_past_end fromStr (fun _ => true) st pair (0 + CHUNK_SIZE) _
        (by omega)
    rw [replayPages.eq_def]
    rw [dif_neg (by rw [hpage]; exact hnil)]
    simp only [hpage, processChunk_sends_succeed, hrest]
    simp

/-- C3: for a pair whose stored history holds only well-formed entries and
at most 24 of them, a replay run in which every send succeeds delivers
exactly one message per stored entry, in the stored most-recent-first
order, and delivers nothing when the history is empty. -/
theorem replay_sends_exactly_history (fromStr : String → Option PriceData)
    (st : Store) (pair : String) (k : Nat)
    (hlen : (st.lists ("history:" ++ pair)).length ≤ 24)
    (hwf : ∀ s ∈ st.lists ("history:" ++ pair), (fromStr s).isSome) :
    (replayPages fromStr (fun _ => true) st pair 0 k).msgs =
      (st.lists ("history:" ++ pair)).map
        (fun s => formatHistoricalMessage pair ((fromStr s).getD ⟨"", ""⟩)) ∧
    (replayPages fromStr (fun _ => true) st pair 0 k).msgs.length =
      (st.lists ("history:" ++ pair)).length ∧
    (st.lists ("history:" ++ pair) = [] →
      (replayPages fromStr (fun _ => true) st pair 0 k).msgs = []) := by
  have h100 : (st.lists ("history:" ++ pair)).length ≤ CHUNK_SIZE := by
    have hc : CHUNK_SIZE = 100 := rfl
    omega
  have hmap : (replayPages fromStr (fun _ => true) st pair 0 k).msgs =
      (st.lists ("history:" ++ pair)).map
        (fun s => formatHistoricalMessage pair ((fromStr s).getD ⟨"", ""⟩)) := by
    rw [replayPages_single_page fromStr st pair k h100]
    exact filterMap_map_of_isSome fromStr (formatHistoricalMessage pair) _ hwf
  refine ⟨hmap, ?_, ?_⟩
  · rw [hmap, List.length_map]
  · intro hnil
    rw [hmap, hnil, List.map_nil]

/-- C3 witness: a two-entry history with an always-succeeding decoder. -/
theorem replay_sends_exactly_history_witness :
    (replayPages (fun s => some ⟨s, "T"⟩) (fun _ => true)
        ⟨fun _ => none, fun key => if key = "history:" ++ "XBTUSD" then ["a", "b"] else []⟩
        "XBTUSD" 0 0).msgs =
      ((⟨fun _ => none,
          fun key => if key = "history:" ++ "XBTUSD" then ["a", "b"] else []⟩ :
            Store).lists ("history:" ++ "XBTUSD")).map
        (fun s => formatHistoricalMessage "XBTUSD"
          (((fun s => some (⟨s, "T"⟩ : PriceData)) s).getD ⟨"", ""⟩)) ∧
    (replayPages (fun s => some ⟨s, "T"⟩) (fun _ => true)
        ⟨fun _ => none, fun key => if key = "history:" ++ "XBTUSD" then ["a", "b"] else []⟩
        "XBTUSD" 0 0).msgs.length =
      ((⟨fun _ => none,
          fun key => if key = "history:" ++ "XBTUSD" then ["a", "b"] else []⟩ :
            Store).lists ("history:" ++ "XBTUSD")).length ∧
    ((⟨fun _ => none,
        fun key => if key = "history:" ++ "XBTUSD" then ["a", "b"] else []⟩ :
          Store).lists ("history:" ++ "XBTUSD") = [] →
      (replayPages (fun s => some ⟨s, "T"⟩) (fun _ => true)
          ⟨fun _ => none, fun key => if key = "history:" ++ "XBTUSD" then ["a", "b"] else []⟩
          "XBTUSD" 0 0).msgs = []) :=
  replay_sends_exactly_history (fun s => some ⟨s, "T"⟩)
    ⟨fun _ => none, fun key => if key = "history:" ++ "XBTUSD" then ["a", "b"] else []⟩
    "XBTUSD" 0 (by simp) (by simp)

/-- C7: the paginated per-pair replay loop is a total function of the
stored history, a page read at an offset at or past the stored length is
the empty page, and at such an offset the loop ends at once with nothing
sent — covering in particular histories of length exactly CHUNK_SIZE or
one more. -/
theorem replay_pagination_terminates (fromStr : String → Option PriceData)
    (sendOk : Nat → Bool) (st : Store) (pair : String) (start k : Nat)
    (hoff : (st.lists ("history:" ++ pair)).length ≤ start) :
    st.lrange ("history:" ++ pair) start (start + CHUNK_SIZE - 1) = [] ∧
    replayPages fromStr sendOk st pair start k = ⟨[], k, true⟩ :=
  ⟨(lrange_chunk_eq_nil_iff st ("history:" ++ pair) start).mpr hoff,
    replayPages_past_end fromStr sendOk st pair start k hoff⟩

/-- C7 witness: a history of exactly CHUNK_SIZE entries read at offset
CHUNK_SIZE — the boundary page is empty and the loop stops. -/
theorem replay_pagination_terminates_witness :
    (⟨fun _ => none,
        fun key => if key = "history:" ++ "XBTUSD" then List.replicate 100 "x" else []⟩ :
          Store).lrange ("history:" ++ "XBTUSD") 100 (100 + CHUNK_SIZE - 1) = [] ∧
    replayPages (fun _ => none) (fun _ => true)
        ⟨fun _ => none,
          fun key => if key = "history:" ++ "XBTUSD" then List.replicate 100 "x" else []⟩
        "XBTUSD" 100 0 = ⟨[], 0, true⟩ :=
  replay_pagination_terminates (fun _ => none) (fun _ => true)
    ⟨fun _ => none,
      fun key => if key = "history:" ++ "XBTUSD" then List.replicate 100 "x" else []⟩
    "XBTUSD" 100 0 (by simp)

/-- C9: a stored history entry that fails to deserialize is skipped
silently — the chunk behaves as if the entry were absent, so the remaining
entries are still processed — and a pair all of whose entries are
malformed contributes no message and does not stop the replay of the
remaining pairs. -/
theorem malformed_entry_skipped :
    (∀ (fromStr : String → Option PriceData) (sendOk : Nat → Bool)
      (pair bad : String) (rest : List String) (k : Nat), fromStr bad = none →
      processChunk fromStr sendOk pair (bad :: rest) k =
        processChunk fromStr sendOk pair rest k) ∧
    (∀ (fromStr : String → Option PriceData) (sendOk : Nat → Bool) (st : Store)
      (p : String) (ps : List String) (k : Nat),
      (∀ s ∈ st.lists ("history:" ++ p), fromStr s = none) →
      replay_data fromStr sendOk st (p :: ps) k =
        replay_data fromStr sendOk st ps k) := by
  constructor
  · intro fromStr sendOk pair bad rest k h
    simp only [processChunk, h]
  · intro fromStr sendOk st p ps k h
    have hpages : replayPages fromStr sendOk st p 0 k = ⟨[], k, true⟩ :=
      replayPages_all_none fromStr sendOk st p h
        ((st.lists ("history:" ++ p)).length) 0 k (by omega)
    simp only [replay_data, hpages]
    simp

/-- C9 witness: one malformed entry before a good one, and a first pair
all of whose entries are malformed followed by a second pair. -/
theorem malformed_entry_skipped_witness :
    processChunk (fun _ => none) (fun _ => true) "XBTUSD" ("z" :: ["y"]) 0 =
      processChunk (fun _ => none) (fun _ => true) "XBTUSD" ["y"] 0 ∧
    replay_data (fun _ => none) (fun _ => true)
        ⟨fun _ => none, fun key => if key = "history:" ++ "P" then ["bad"] else []⟩
        ("P" :: ["Q"]) 0 =
      replay_data (fun _ => none) (fun _ => true)
        ⟨fun _ => none, fun key => if key = "history:" ++ "P" then ["bad"] else []⟩
        ["Q"] 0 :=
  ⟨malformed_entry_skipped.1 (fun _ => none) (fun _ => true) "XBTUSD" "z" ["y"] 0 rfl,
    malformed_entry_skipped.2 (fun _ => none) (fun _ => true)
      ⟨fun _ => none, fun key => if key = "history:" ++ "P" then ["bad"] else []⟩
      "P" ["Q"] 0 (by simp)⟩

end Cryptobot
